import Mathlib

/-!
Shallow embedding of the client-side shopping-cart store
(`CartProvider` / `cartReducer` and its persistence glue).

Modelling conventions:
* Product identifiers are opaque; we model them as `Option Nat`, where
  `none` models a missing (`undefined`) `id` field on a product object.
  JavaScript `===` on two `undefined` values is `true`, which matches
  `Option` equality (`none == none`).
* Unit prices are `Option Int`: `none` models a missing `price` field.
  In JavaScript `undefined * q` is `NaN` and `x + NaN` is `NaN`, so the
  arithmetic on `Option Int` propagates `none` (`jsMul`, `jsAdd`).
  `NaN` and an absent field are both falsy, so `v || 0` maps `none` to `0`.
* Quantities and item counts are `Int` (callers pass ordinary numbers).
* The durable-store read/write effects are modelled by explicit outcome
  parameters (`ReadResult`, `WriteResult`); the reducer itself is pure.
-/

namespace Shoppico

/-- JavaScript addition on numbers-or-NaN: `none` models `NaN`
(`x + NaN = NaN + x = NaN`). -/
def jsAdd : Option Int → Option Int → Option Int
  | some a, some b => some (a + b)
  | _, _ => none

/-- JavaScript multiplication of a possibly-missing price by a quantity:
`undefined * q` is `NaN`. -/
def jsMul : Option Int → Int → Option Int
  | some a, b => some (a * b)
  | none, _ => none

/-- A product descriptor as passed to `addToCart`.  `id`/`price` may be
missing (`none`), mirroring a malformed JavaScript object; `name` stands
for the opaque display metadata. -/
structure Product where
  id : Option Nat
  price : Option Int
  name : Option String
deriving DecidableEq

/-- One line item of the cart: the product's fields plus a `quantity`
(`{ ...product, quantity }` in the source). -/
structure CartItem where
  id : Option Nat
  price : Option Int
  name : Option String
  quantity : Int
deriving DecidableEq

/-- The cart state held by the reducer. -/
structure CartState where
  items : List CartItem
  total : Option Int
  itemCount : Int
  loading : Bool
  error : Option String
deriving DecidableEq

/-- `initialState` from the source: empty items, zero totals, not loading,
no error. -/
def initialState : CartState :=
  { items := [], total := some 0, itemCount := 0, loading := false, error := none }

/-- The persisted blob `{items, total, itemCount}`; each field may be
absent or `null` after `JSON.parse` (modelled by `none`). -/
structure CartBlob where
  items : Option (List CartItem)
  total : Option Int
  itemCount : Option Int
deriving DecidableEq

/-- The reducer's action type, one constructor per action-type constant of
the source. -/
inductive CartAction where
  | LOAD_CART (payload : CartBlob)
  | ADD_TO_CART (product : Product) (quantity : Int)
  | REMOVE_FROM_CART (productId : Option Nat)
  | UPDATE_QUANTITY (productId : Option Nat) (quantity : Int)
  | CLEAR_CART
  | SET_LOADING (payload : Bool)
  | SET_ERROR (payload : Option String)

/-- `newItems.reduce((sum, item) => sum + (item.price * item.quantity), 0)`. -/
def sumTotal (items : List CartItem) : Option Int :=
  items.foldl (fun sum item => jsAdd sum (jsMul item.price item.quantity)) (some 0)

/-- `newItems.reduce((sum, item) => sum + item.quantity, 0)`. -/
def sumCount (items : List CartItem) : Int :=
  items.foldl (fun sum item => sum + item.quantity) 0

/-- `cartReducer` from the source, translated case by case.
`removeImpl` is the body of the `REMOVE_FROM_CART` case; the
`UPDATE_QUANTITY` case re-dispatches to it for `quantity <= 0`, exactly as
the source calls `cartReducer(state, { type: REMOVE_FROM_CART, ... })` on
the same state.  `findIndex` returning `-1` with the `>= 0` test is
rendered as `List.findIdx` returning `length` with a `< length` test. -/
def cartReducer (state : CartState) (action : CartAction) : CartState :=
  let removeImpl : Option Nat → CartState := fun productId =>
    let newItems := state.items.filter (fun item => item.id != productId)
    { state with
      items := newItems
      total := sumTotal newItems
      itemCount := sumCount newItems
      loading := false
      error := none }
  match action with
  | .LOAD_CART payload =>
      { state with
        items := payload.items.getD []
        total := some (payload.total.getD 0)
        itemCount := payload.itemCount.getD 0
        loading := false
        error := none }
  | .ADD_TO_CART product quantity =>
      let existingItemIndex := state.items.findIdx (fun item => item.id == product.id)
      let newItems :=
        if existingItemIndex < state.items.length then
          state.items.mapIdx (fun index item =>
            if index = existingItemIndex then
              { item with quantity := item.quantity + quantity }
            else item)
        else
          state.items ++ [{ id := product.id
                            price := product.price
                            name := product.name
                            quantity := quantity }]
      { state with
        items := newItems
        total := sumTotal newItems
        itemCount := sumCount newItems
        loading := false
        error := none }
  | .REMOVE_FROM_CART productId => removeImpl productId
  | .UPDATE_QUANTITY productId quantity =>
      if quantity ≤ 0 then removeImpl productId
      else
        let newItems := state.items.map (fun item =>
          if item.id == productId then { item with quantity := quantity } else item)
        { state with
          items := newItems
          total := sumTotal newItems
          itemCount := sumCount newItems
          loading := false
          error := none }
  | .CLEAR_CART =>
      { state with
        items := []
        total := some 0
        itemCount := 0
        loading := false
        error := none }
  | .SET_LOADING payload => { state with loading := payload }
  | .SET_ERROR payload => { state with error := payload, loading := false }

/-- The provider's `addToCart(product, quantity)` (the source defaults
`quantity` to `1`; callers here always pass it explicitly). -/
def addToCart (state : CartState) (product : Product) (quantity : Int) : CartState :=
  cartReducer state (.ADD_TO_CART product quantity)

/-- The provider's `removeFromCart(productId)`. -/
def removeFromCart (state : CartState) (productId : Option Nat) : CartState :=
  cartReducer state (.REMOVE_FROM_CART productId)

/-- The provider's `updateQuantity(productId, quantity)`. -/
def updateQuantity (state : CartState) (productId : Option Nat) (quantity : Int) : CartState :=
  cartReducer state (.UPDATE_QUANTITY productId quantity)

/-- The provider's `clearCart()`. -/
def clearCart (state : CartState) : CartState :=
  cartReducer state .CLEAR_CART

/-- Outcome of the durable-store read performed by `loadCart`:
the key was found and parsed to a blob, the key was absent (`null`), or
`getItem`/`JSON.parse` threw. -/
inductive ReadResult where
  | found (blob : CartBlob)
  | notFound
  | failure

/-- The provider's `loadCart` effect: dispatch `SET_LOADING true`, then
depending on the read outcome dispatch `LOAD_CART`, `CLEAR_CART`, or (in
the `catch` block) `SET_ERROR 'Failed to load cart'`. -/
def loadCart (state : CartState) (r : ReadResult) : CartState :=
  let s1 := cartReducer state (.SET_LOADING true)
  match r with
  | .found blob => cartReducer s1 (.LOAD_CART blob)
  | .notFound => cartReducer s1 .CLEAR_CART
  | .failure => cartReducer s1 (.SET_ERROR (some "Failed to load cart"))

/-- Outcome of the durable-store write performed by the save effect. -/
inductive WriteResult where
  | success
  | failure

/-- The provider's save effect: when not loading, try to write the blob;
a failed write is caught and only logged (`console.error`), dispatching
nothing, so the state is returned unchanged in every branch. -/
def saveCart (state : CartState) (w : WriteResult) : CartState :=
  if state.loading then state
  else
    match w with
    | .success => state
    | .failure => state

/-- The mutation operations exposed by the provider (the actions of the
claims' sequences); `LOAD_CART`/`SET_LOADING`/`SET_ERROR` are only
dispatched by the load effect, not by a mutation call. -/
inductive MutAction where
  | addToCart (product : Product) (quantity : Int)
  | removeFromCart (productId : Option Nat)
  | updateQuantity (productId : Option Nat) (quantity : Int)
  | clearCart

/-- Interpret a mutation call as the action it dispatches. -/
def MutAction.toAction : MutAction → CartAction
  | .addToCart p q => .ADD_TO_CART p q
  | .removeFromCart pid => .REMOVE_FROM_CART pid
  | .updateQuantity pid q => .UPDATE_QUANTITY pid q
  | .clearCart => .CLEAR_CART

/-- Run a sequence of mutation calls through the reducer, in call order. -/
def applyMuts (state : CartState) (acts : List MutAction) : CartState :=
  acts.foldl (fun s a => cartReducer s a.toAction) state

/-- Updating the first element satisfying `p` (and nothing else): the
effect of `findIndex` + map-by-index-equality in `ADD_TO_CART`. -/
def updateFirst {α : Type} (p : α → Bool) (f : α → α) : List α → List α
  | [] => []
  | x :: xs => if p x then f x :: xs else x :: updateFirst p f xs

/-- Claim C3: for every cart state, productId and quantity `q ≤ 0`,
`updateQuantity(productId, q)` produces exactly the same state as
`removeFromCart(productId)`. -/
theorem updateQuantity_nonpos_eq_removeFromCart
    (s : CartState) (pid : Option Nat) (q : Int) (h : q ≤ 0) :
    updateQuantity s pid q = removeFromCart s pid := by
  simp [updateQuantity, removeFromCart, cartReducer, h]

/-- Witness for C3 at `q = 0` on the initial state. -/
theorem updateQuantity_nonpos_eq_removeFromCart_witness :
    updateQuantity initialState (some 5) 0 = removeFromCart initialState (some 5) :=
  updateQuantity_nonpos_eq_removeFromCart initialState (some 5) 0 (by decide)

/-- Counterexample to claim C4: `clearCart` does not leave `loading` and
`error` unchanged — on a state with `loading = true` and an error message,
it resets both. -/
theorem clearCart_changes_loading_error :
    (clearCart ⟨[], some 0, 0, true, some "boom"⟩).loading ≠ true ∧
    (clearCart ⟨[], some 0, 0, true, some "boom"⟩).error ≠ some "boom" := by
  constructor <;> decide

/-- Claim C4 (amended): for every cart state, `clearCart()` yields
`items = []`, `total = 0`, `itemCount = 0`, and additionally resets
`loading` to `false` and `error` to `null` (rather than preserving them). -/
theorem clearCart_resets (s : CartState) :
    clearCart s =
      { items := [], total := some 0, itemCount := 0, loading := false, error := none } :=
  rfl

/-- Counterexample to claim C7: when the durable-store read fails, the
load does not adopt an empty cart — a non-empty prior `items` list
survives the failed load. -/
theorem loadCart_failure_keeps_items :
    (loadCart ⟨[⟨some 1, some 10, none, 1⟩], some 10, 1, false, none⟩ .failure).items
      ≠ [] := by
  decide

/-- Claim C7 (amended): for every prior cart state, a load whose
durable-store read fails (or whose data fails to parse) completes with
`error = "Failed to load cart"` and `loading = false`, leaving `items`,
`total` and `itemCount` exactly as they were (no exception escapes; the
prior in-memory cart is kept, not replaced by an empty one). -/
theorem loadCart_failure_sets_error_keeps_cart (s : CartState) :
    loadCart s .failure =
      { s with loading := false, error := some "Failed to load cart" } :=
  rfl

/-- Counterexample to claim C8: after a mutation, a failed durable-store
write does not set the `error` field (the `catch` only logs) — here it
stays `none`. -/
theorem saveCart_failure_leaves_error_unset :
    (saveCart (addToCart initialState ⟨some 1, some 10, none⟩ 1) .failure).error
      = none := by
  decide

/-- Claim C8 (amended): for every cart state and every write outcome, the
save effect returns the in-memory state entirely unchanged: a write
failure is caught and logged, never throws, performs no rollback or retry,
and — contrary to the claim — does not set the `error` field either. -/
theorem saveCart_never_mutates (s : CartState) (w : WriteResult) :
    saveCart s w = s := by
  unfold saveCart
  split
  · rfl
  · cases w <;> rfl

/-- Claim C10: `LOAD_CART` adopts the persisted blob's `items`, `total`
and `itemCount` verbatim (with only the falsy-fallbacks `|| []` / `|| 0`),
without recomputing the derived fields; for a blob whose stored total
differs from the sum over its items of `price * quantity`, the post-load
state violates the derived-field invariant. -/
theorem loadAction_adopts_blob_verbatim :
    (∀ (s : CartState) (b : CartBlob),
        cartReducer s (.LOAD_CART b) =
          ⟨b.items.getD [], some (b.total.getD 0), b.itemCount.getD 0, false, none⟩) ∧
    ((cartReducer initialState
        (.LOAD_CART ⟨some [⟨some 1, some 10, none, 1⟩], some 999, some 1⟩)).total ≠
      sumTotal (cartReducer initialState
        (.LOAD_CART ⟨some [⟨some 1, some 10, none, 1⟩], some 999, some 1⟩)).items) := by
  refine ⟨fun s b => rfl, ?_⟩
  decide

/-- Every single mutation dispatch re-establishes the derived-field
invariant, whatever the input state: each mutation case of the reducer
stores `sumTotal newItems` / `sumCount newItems` alongside `newItems`. -/
lemma mutStep_consistent (s : CartState) (a : MutAction) :
    (cartReducer s a.toAction).total = sumTotal (cartReducer s a.toAction).items ∧
    (cartReducer s a.toAction).itemCount = sumCount (cartReducer s a.toAction).items := by
  cases a with
  | addToCart p q => exact ⟨rfl, rfl⟩
  | removeFromCart pid => exact ⟨rfl, rfl⟩
  | updateQuantity pid q =>
      simp only [MutAction.toAction, cartReducer]
      split
      · exact ⟨rfl, rfl⟩
      · exact ⟨rfl, rfl⟩
  | clearCart => exact ⟨rfl, rfl⟩

/-- The derived-field invariant propagates through any sequence of
mutation calls. -/
lemma applyMuts_consistent : ∀ (acts : List MutAction) (s : CartState),
    s.total = sumTotal s.items → s.itemCount = sumCount s.items →
    (applyMuts s acts).total = sumTotal (applyMuts s acts).items ∧
    (applyMuts s acts).itemCount = sumCount (applyMuts s acts).items
  | [], _, h1, h2 => ⟨h1, h2⟩
  | a :: acts, s, _, _ =>
      applyMuts_consistent acts (cartReducer s a.toAction)
        (mutStep_consistent s a).1 (mutStep_consistent s a).2

/-- Claim C1: after every call of any sequence of mutation calls
(`addToCart`, `removeFromCart`, `updateQuantity`, and also `clearCart`)
starting from the empty cart state, `total` equals the sum over `items`
of `price * quantity` and `itemCount` equals the sum of quantities. -/
theorem cart_derived_fields_consistent (acts : List MutAction) :
    (applyMuts initialState acts).total = sumTotal (applyMuts initialState acts).items ∧
    (applyMuts initialState acts).itemCount = sumCount (applyMuts initialState acts).items :=
  applyMuts_consistent acts initialState rfl rfl

/-- `mapIdx` with a pointwise-`m`-preserving function preserves the
`m`-image of the list. -/
lemma map_mapIdx_of_preserve {α β : Type} (m : α → β) :
    ∀ (l : List α) (g : Nat → α → α), (∀ j x, m (g j x) = m x) →
      (l.mapIdx g).map m = l.map m
  | [], _, _ => rfl
  | a :: l, g, h => by
      rw [List.mapIdx_cons, List.map_cons, List.map_cons, h 0 a,
        map_mapIdx_of_preserve m l (fun i => g (i + 1)) (fun j x => h (j + 1) x)]

/-- Every single mutation dispatch preserves uniqueness of the item ids. -/
lemma mutStep_nodup (s : CartState) (a : MutAction)
    (h : (s.items.map CartItem.id).Nodup) :
    ((cartReducer s a.toAction).items.map CartItem.id).Nodup := by
  cases a with
  | addToCart p q =>
      simp only [MutAction.toAction, cartReducer]
      split
      · rw [map_mapIdx_of_preserve]
        · exact h
        · intro j x
          by_cases hj : j = s.items.findIdx (fun item => item.id == p.id) <;> simp [hj]
      · rw [List.map_append]
        refine ((List.perm_append_singleton _ _).nodup_iff).mpr (List.nodup_cons.mpr ⟨?_, h⟩)
        intro hmem
        rcases List.mem_map.mp hmem with ⟨x, hx, hxid⟩
        have hall := List.findIdx_eq_length.mp (Nat.le_antisymm (List.findIdx_le_length _)
          (Nat.le_of_not_lt (by assumption)))
        have := hall x hx
        simp [hxid] at this
  | removeFromCart pid =>
      exact h.sublist ((List.filter_sublist _).map _)
  | updateQuantity pid q =>
      simp only [MutAction.toAction, cartReducer]
      split
      · exact h.sublist ((List.filter_sublist _).map _)
      · rw [List.map_map]
        have : (CartItem.id ∘ fun item =>
            if item.id == pid then { item with quantity := q } else item) = CartItem.id := by
          funext x
          simp only [Function.comp_apply]
          split <;> rfl
        rw [this]
        exact h
  | clearCart => exact List.nodup_nil

/-- Uniqueness of ids propagates through any sequence of mutation calls. -/
lemma applyMuts_nodup : ∀ (acts : List MutAction) (s : CartState),
    (s.items.map CartItem.id).Nodup →
    ((applyMuts s acts).items.map CartItem.id).Nodup
  | [], _, h => h
  | a :: acts, s, h =>
      applyMuts_nodup acts (cartReducer s a.toAction) (mutStep_nodup s a h)

/-- Claim C6: for every sequence of mutation calls (`addToCart`,
`removeFromCart`, `updateQuantity`, `clearCart`) starting from the empty
cart state, the resulting items list never contains two line items with
the same id. -/
theorem cart_ids_nodup (acts : List MutAction) :
    ((applyMuts initialState acts).items.map CartItem.id).Nodup :=
  applyMuts_nodup acts initialState List.nodup_nil

/-- `mapIdx` with the identity at every index is the identity. -/
lemma mapIdx_id {α : Type} : ∀ (l : List α), (l.mapIdx fun _ x => x) = l
  | [] => rfl
  | a :: l => by
      rw [List.mapIdx_cons]
      exact congrArg (a :: ·) (mapIdx_id l)

/-- The `findIndex` + map-by-index-equality idiom of `ADD_TO_CART` updates
exactly the first element satisfying the predicate. -/
lemma mapIdx_ite_updateFirst {α : Type} (p : α → Bool) (f : α → α) :
    ∀ (l : List α), l.findIdx p < l.length →
      (l.mapIdx fun j x => if j = l.findIdx p then f x else x) = updateFirst p f l := by
  intro l
  induction l with
  | nil => intro h; simp at h
  | cons a l ih =>
    intro h
    by_cases hpa : p a = true
    · have hidx : (a :: l).findIdx p = 0 := by simp [List.findIdx_cons, hpa]
      rw [hidx, List.mapIdx_cons]
      have h2 : (fun (i : Nat) (x : α) => if i + 1 = 0 then f x else x) = fun _ x => x := by
        funext i x
        simp
      simp only [if_pos rfl, h2, mapIdx_id, updateFirst, hpa, if_true]
    · have hpa' : p a = false := by simpa using hpa
      have hidx : (a :: l).findIdx p = l.findIdx p + 1 := by
        simp [List.findIdx_cons, hpa']
      have hlt : l.findIdx p < l.length := by
        rw [hidx] at h
        simpa [Nat.succ_lt_succ_iff] using h
      rw [hidx, List.mapIdx_cons]
      have h2 : (fun (i : Nat) (x : α) => if i + 1 = l.findIdx p + 1 then f x else x)
          = fun i x => if i = l.findIdx p then f x else x := by
        funext i x
        simp
      rw [if_neg (Nat.succ_ne_zero _).symm, h2, ih hlt]
      simp [updateFirst, hpa']

/-- `updateFirst` with a field-preserving function preserves the image of
that field over the list. -/
lemma map_updateFirst {α β : Type} (m : α → β) (p : α → Bool) (f : α → α)
    (hf : ∀ x, m (f x) = m x) :
    ∀ (l : List α), (updateFirst p f l).map m = l.map m
  | [] => rfl
  | a :: l => by
      simp only [updateFirst]
      split
      · simp [hf]
      · simp [map_updateFirst m p f hf l]

/-- On a list with unique ids, updating the (unique) item whose id is
`pid` leaves exactly one item with id `pid`, namely the updated one. -/
lemma filter_updateFirst (pid : Option Nat) (f : CartItem → CartItem)
    (hf : ∀ x, (f x).id = x.id) :
    ∀ (l : List CartItem), (l.map CartItem.id).Nodup →
      ∀ it, it ∈ l → it.id = pid →
        (updateFirst (fun x => x.id == pid) f l).filter (fun x => x.id == pid) = [f it] := by
  intro l
  induction l with
  | nil => intro _ it hit; cases hit
  | cons a l ih =>
    intro hnd it hit hid
    rw [List.map_cons, List.nodup_cons] at hnd
    obtain ⟨ha, hnd'⟩ := hnd
    by_cases hpa : (a.id == pid) = true
    · have haid : a.id = pid := by simpa using hpa
      have hita : it = a := by
        rcases List.mem_cons.mp hit with h | h
        · exact h
        · exfalso
          apply ha
          have hmm : it.id ∈ List.map CartItem.id l := List.mem_map_of_mem CartItem.id h
          rw [hid, ← haid] at hmm
          exact hmm
      subst hita
      simp only [updateFirst, hpa, if_true]
      rw [List.filter_cons_of_pos (by simp [hf it, hid])]
      have hnil : l.filter (fun x => x.id == pid) = [] := by
        rw [List.filter_eq_nil_iff]
        intro x hx hxp
        apply ha
        have hmm : x.id ∈ List.map CartItem.id l := List.mem_map_of_mem CartItem.id hx
        rw [show x.id = pid by simpa using hxp, ← haid] at hmm
        exact hmm
      rw [hnil]
    · have hita : it ≠ a := by
        intro he
        exact hpa (by simp [← he, hid])
      have hitl : it ∈ l := by
        rcases List.mem_cons.mp hit with h | h
        · exact absurd h hita
        · exact h
      have hup : updateFirst (fun x => x.id == pid) f (a :: l)
          = a :: updateFirst (fun x => x.id == pid) f l := by
        simp [updateFirst, hpa]
      rw [hup, List.filter_cons_of_neg (by exact hpa)]
      exact ih hnd' it hitl hid

/-- `ADD_TO_CART` on a state already carrying the product's id updates the
first (on unique-id states: the only) matching line item in place. -/
lemma addToCart_found (s : CartState) (P : Product) (q : Int)
    (h : s.items.findIdx (fun item => item.id == P.id) < s.items.length) :
    (addToCart s P q).items =
      updateFirst (fun item => item.id == P.id)
        (fun item => { item with quantity := item.quantity + q }) s.items := by
  simp only [addToCart, cartReducer, if_pos h]
  exact mapIdx_ite_updateFirst _ _ _ h

/-- `ADD_TO_CART` on a state not carrying the product's id appends a new
line item built from the product descriptor. -/
lemma addToCart_notFound (s : CartState) (P : Product) (q : Int)
    (h : ¬ s.items.findIdx (fun item => item.id == P.id) < s.items.length) :
    (addToCart s P q).items = s.items ++ [⟨P.id, P.price, P.name, q⟩] := by
  simp only [addToCart, cartReducer, if_neg h]

/-- Claim C2: for a product `P` carried (under unique ids) in the cart and
positive quantities `m`, `n`, `addToCart(P, m)` then `addToCart(P, n)`
yields exactly one line item with `P`'s id — the prior item with its
quantity increased by `m + n` — never a duplicate and never a
replacement. -/
theorem addToCart_accumulates (s : CartState) (P : Product) (m n : Int)
    (hm : 0 < m) (hn : 0 < n)
    (hnd : (s.items.map CartItem.id).Nodup)
    (it : CartItem) (hit : it ∈ s.items) (hid : it.id = P.id) :
    ((addToCart (addToCart s P m) P n).items.filter (fun x => x.id == P.id))
      = [{ it with quantity := it.quantity + m + n }] := by
  have hfound1 : s.items.findIdx (fun item => item.id == P.id) < s.items.length :=
    List.findIdx_lt_length.mpr ⟨it, hit, by simp [hid]⟩
  have hitems1 := addToCart_found s P m hfound1
  have hids1 : ((addToCart s P m).items.map CartItem.id).Nodup := by
    rw [hitems1, map_updateFirst CartItem.id (fun item => item.id == P.id)
      (fun item => { item with quantity := item.quantity + m }) (fun x => rfl)]
    exact hnd
  have hfil1 : (addToCart s P m).items.filter (fun x => x.id == P.id)
      = [{ it with quantity := it.quantity + m }] := by
    rw [hitems1]
    exact filter_updateFirst P.id (fun item => { item with quantity := item.quantity + m })
      (fun x => rfl) s.items hnd it hit hid
  have hmem1 : ({ it with quantity := it.quantity + m } : CartItem) ∈ (addToCart s P m).items :=
    List.mem_of_mem_filter (hfil1 ▸ List.mem_singleton_self _)
  have hfound2 : (addToCart s P m).items.findIdx (fun item => item.id == P.id)
      < (addToCart s P m).items.length :=
    List.findIdx_lt_length.mpr ⟨_, hmem1, by simp [hid]⟩
  rw [addToCart_found (addToCart s P m) P n hfound2]
  exact filter_updateFirst P.id (fun item => { item with quantity := item.quantity + n })
    (fun x => rfl) (addToCart s P m).items hids1 _ hmem1 hid

/-- Witness for C2: a one-item cart holding the product with id 1 and
quantity 1; adding 2 then 3 more leaves a single line item of quantity
`1 + 2 + 3`. -/
theorem addToCart_accumulates_witness :
    ((addToCart (addToCart ⟨[⟨some 1, some 10, none, 1⟩], some 10, 1, false, none⟩
        ⟨some 1, some 10, none⟩ 2) ⟨some 1, some 10, none⟩ 3).items.filter
        (fun x => x.id == (⟨some 1, some 10, none⟩ : Product).id))
      = [⟨some 1, some 10, none, 1 + 2 + 3⟩] :=
  addToCart_accumulates ⟨[⟨some 1, some 10, none, 1⟩], some 10, 1, false, none⟩
    ⟨some 1, some 10, none⟩ 2 3 (by decide) (by decide) (by decide)
    ⟨some 1, some 10, none, 1⟩ (List.mem_singleton_self _) rfl

/-- Rebuilding the state from recomputed derived fields, `loading = false`
and `error = none` is the identity exactly on states already in that
form. -/
lemma mk_eq_self (s : CartState)
    (htot : s.total = sumTotal s.items) (hcnt : s.itemCount = sumCount s.items)
    (hload : s.loading = false) (herr : s.error = none) :
    CartState.mk s.items (sumTotal s.items) (sumCount s.items) false none = s := by
  cases s with
  | mk i t c lo er =>
      dsimp at htot hcnt hload herr
      subst htot
      subst hcnt
      subst hload
      subst herr
      rfl

/-- Counterexample to claim C5: `removeFromCart` with an unknown id is not
a no-op on all five fields — it clears a pending `error`. -/
theorem removeFromCart_unknown_changes_state :
    removeFromCart ⟨[], some 0, 0, false, some "offline"⟩ (some 1)
      ≠ ⟨[], some 0, 0, false, some "offline"⟩ := by
  decide

/-- Claim C5 (amended): for a `productId` matching no item,
`removeFromCart(productId)` and `updateQuantity(productId, q)` with
`q > 0` leave `items` unchanged and recompute `total`/`itemCount`, but
also set `loading := false` and `error := none`; hence they are exact
no-ops (all five fields) precisely on states whose derived fields are
consistent and whose `loading` is already `false` and `error` already
`null`.  No error is raised either way. -/
theorem unknown_productId_noop (s : CartState) (pid : Option Nat) (q : Int)
    (hq : 0 < q) (hpid : ∀ it ∈ s.items, it.id ≠ pid)
    (htot : s.total = sumTotal s.items) (hcnt : s.itemCount = sumCount s.items)
    (hload : s.loading = false) (herr : s.error = none) :
    removeFromCart s pid = s ∧ updateQuantity s pid q = s := by
  have hfil : s.items.filter (fun item => item.id != pid) = s.items :=
    List.filter_eq_self.mpr (fun a ha => by simpa using hpid a ha)
  have hmap : (s.items.map (fun item =>
      if item.id == pid then { item with quantity := q } else item)) = s.items := by
    have hcg : ∀ a ∈ s.items,
        (if a.id == pid then { a with quantity := q } else a) = id a := by
      intro a ha
      have : ¬ ((a.id == pid) = true) := by simpa using hpid a ha
      simp [this]
    rw [List.map_congr_left hcg, List.map_id]
  constructor
  · have e : removeFromCart s pid =
        CartState.mk (s.items.filter fun item => item.id != pid)
          (sumTotal (s.items.filter fun item => item.id != pid))
          (sumCount (s.items.filter fun item => item.id != pid)) false none := rfl
    rw [e, hfil]
    exact mk_eq_self s htot hcnt hload herr
  · have hq' : ¬ q ≤ 0 := not_le.mpr hq
    have e : updateQuantity s pid q =
        CartState.mk
          (s.items.map fun item =>
            if item.id == pid then { item with quantity := q } else item)
          (sumTotal (s.items.map fun item =>
            if item.id == pid then { item with quantity := q } else item))
          (sumCount (s.items.map fun item =>
            if item.id == pid then { item with quantity := q } else item))
          false none := by
      simp only [updateQuantity, cartReducer, if_neg hq']
    rw [e, hmap]
    exact mk_eq_self s htot hcnt hload herr

/-- Witness for C5 (amended) on a consistent one-item cart and the
unknown id 99. -/
theorem unknown_productId_noop_witness :
    removeFromCart ⟨[⟨some 1, some 10, none, 2⟩], some 20, 2, false, none⟩ (some 99)
        = ⟨[⟨some 1, some 10, none, 2⟩], some 20, 2, false, none⟩ ∧
    updateQuantity ⟨[⟨some 1, some 10, none, 2⟩], some 20, 2, false, none⟩ (some 99) 5
        = ⟨[⟨some 1, some 10, none, 2⟩], some 20, 2, false, none⟩ :=
  unknown_productId_noop ⟨[⟨some 1, some 10, none, 2⟩], some 20, 2, false, none⟩
    (some 99) 5 (by decide) (by decide) (by decide) (by decide) rfl rfl

/-- `NaN` absorbs addition on the right. -/
lemma jsAdd_none (a : Option Int) : jsAdd a none = none := by
  cases a <;> rfl

/-- Appending an item with a missing price makes the recomputed total
`NaN`. -/
lemma sumTotal_append_missing_price (l : List CartItem) (x : CartItem)
    (hx : x.price = none) :
    sumTotal (l ++ [x]) = none := by
  rw [sumTotal, List.foldl_append]
  simp [hx, jsMul, jsAdd_none]

/-- Counterexample to claim C9: `addToCart` with a product missing the
`price` field is not rejected — it mutates the state and admits a
malformed line item, and the recomputed total is `NaN`. -/
theorem addToCart_admits_malformed :
    addToCart initialState ⟨some 7, none, none⟩ 1 ≠ initialState ∧
    (addToCart initialState ⟨some 7, none, none⟩ 1).items = [⟨some 7, none, none, 1⟩] ∧
    (addToCart initialState ⟨some 7, none, none⟩ 1).total = none := by
  refine ⟨by decide, by decide, by decide⟩

/-- Claim C9 (amended): `addToCart` performs no validation: for every cart
state and product descriptor with a missing `price` whose id matches no
existing item (in particular a descriptor also missing `id`, on carts of
well-formed items), the malformed descriptor is appended to `items` as a
line item and `total` is recomputed to `NaN`; the pre-existing items
themselves are carried over unchanged rather than corrupted. -/
theorem addToCart_no_validation (s : CartState) (p : Product) (q : Int)
    (hprice : p.price = none)
    (hnew : ∀ it ∈ s.items, it.id ≠ p.id) :
    (addToCart s p q).items = s.items ++ [⟨p.id, p.price, p.name, q⟩] ∧
    (addToCart s p q).total = none := by
  have hnf : ¬ s.items.findIdx (fun item => item.id == p.id) < s.items.length := by
    rw [List.findIdx_lt_length]
    rintro ⟨x, hx, hpx⟩
    exact hnew x hx (by simpa using hpx)
  refine ⟨addToCart_notFound s p q hnf, ?_⟩
  have hcons := (mutStep_consistent s (.addToCart p q)).1
  rw [show (addToCart s p q).total = sumTotal (addToCart s p q).items from hcons,
    addToCart_notFound s p q hnf]
  exact sumTotal_append_missing_price s.items _ hprice

/-- Witness for C9 (amended): a product missing both `id` and `price`
appended to a one-item cart. -/
theorem addToCart_no_validation_witness :
    (addToCart ⟨[⟨some 1, some 2, none, 1⟩], some 2, 1, false, none⟩ ⟨none, none, none⟩ 3).items
        = [⟨some 1, some 2, none, 1⟩] ++ [⟨none, none, none, 3⟩] ∧
    (addToCart ⟨[⟨some 1, some 2, none, 1⟩], some 2, 1, false, none⟩ ⟨none, none, none⟩ 3).total
        = none :=
  addToCart_no_validation ⟨[⟨some 1, some 2, none, 1⟩], some 2, 1, false, none⟩
    ⟨none, none, none⟩ 3 rfl (by decide)

end Shoppico
